import Mathlib

/-!
Verification development for the fuel-route planner
(fuel_router_app/route_optimizer.py, function find_optimal_fuel_stops).

The planner is shallowly embedded over exact rational arithmetic.  The
great-circle distance routine (geopy's geodesic, wrapped by
calculate_distance) is an external library call, so every definition is
parametric in a distance function D : coordinate -> coordinate -> rational.
Route polyline points are (longitude, latitude) pairs exactly as received
from the routing provider; the code swaps them into (latitude, longitude)
coordinates before measuring distances.

Concrete instances and counterexamples use taxiD, the taxicab metric on
coordinate pairs, which is a genuine metric (nonnegative, symmetric,
triangle inequality, zero on the diagonal), matching the properties of
geodesic distance that the planner relies on.
-/

/-- A fuel station row, as read from the FuelStation catalog:
identifier, name, latitude, longitude, retail price per gallon. -/
structure Station where
  opis_id : Nat
  name : String
  lat : ℚ
  lon : ℚ
  retail_price : ℚ
deriving DecidableEq

/-- One appended fuel stop, mirroring the dict built at lines 205-216 of
route_optimizer.py: station identity, (lat, lng) location, unit price,
approximate distance from start, gallons purchased and cost. -/
structure FuelStop where
  station_id : Nat
  name : String
  loc : ℚ × ℚ
  price : ℚ
  distance_from_start : ℚ
  gallons : ℚ
  cost : ℚ
deriving DecidableEq

/-- The mutable state of the stepping walk: index into the sampled
waypoints, remaining range in miles, coordinates of the last stop
(initially the start), and the accumulated stop list. -/
structure PState where
  i : ℕ
  remaining : ℚ
  lastStop : ℚ × ℚ
  stops : List FuelStop
deriving DecidableEq

/-- Result of one iteration of the while loop: either continue with a new
state, or raise the stranded error (the only error raised inside the
loop, line 270). -/
inductive StepOut where
  | next (s : PState) : StepOut
  | stranded (loc : ℚ × ℚ) (remaining : ℚ) : StepOut
deriving DecidableEq

/-- Errors a planning run can surface.  stranded models the ValueError
raised at line 270 with the current coordinates and remaining range;
emptySequence models the ValueError that min() raises at line 106 when
the route polyline is empty. -/
inductive PlanError where
  | stranded (loc : ℚ × ℚ) (remaining : ℚ) : PlanError
  | emptySequence : PlanError
deriving DecidableEq

/-- True exactly on the stranded error. -/
def PlanError.isStranded : PlanError → Bool
  | .stranded _ _ => true
  | .emptySequence => false

/-- The dict returned by find_optimal_fuel_stops (lines 299-303). -/
structure PlanResult where
  fuel_stops : List FuelStop
  total_cost : ℚ
  total_distance : ℚ
deriving DecidableEq

instance {ε α : Type} [DecidableEq ε] [DecidableEq α] : DecidableEq (Except ε α) :=
  fun x y =>
    match x, y with
    | .ok a, .ok b =>
      if h : a = b then .isTrue (by rw [h]) else .isFalse (fun hh => h (Except.ok.inj hh))
    | .error a, .error b =>
      if h : a = b then .isTrue (by rw [h]) else .isFalse (fun hh => h (Except.error.inj hh))
    | .ok _, .error _ => .isFalse (fun hh => Except.noConfusion hh)
    | .error _, .ok _ => .isFalse (fun hh => Except.noConfusion hh)

/-- A scored candidate station (the dict appended at lines 183-188):
the station, its distance from the current waypoint, its deviation and
its score. -/
structure Candidate where
  station : Station
  distance : ℚ
  deviation : ℚ
  score : ℚ
deriving DecidableEq

/-- The fixed inputs of the stepping walk: distance function, prefiltered
stations, start and end coordinates (lat, lon), the sampled waypoints
(as (lon, lat) polyline points), tank range and fuel economy. -/
structure Env where
  D : ℚ × ℚ → ℚ × ℚ → ℚ
  stations : List Station
  start_coords : ℚ × ℚ
  end_coords : ℚ × ℚ
  sampled : List (ℚ × ℚ)
  tank_range : ℚ
  mpg : ℚ

/-- Python int() applied to a rational: truncation toward zero. -/
def truncInt (q : ℚ) : ℤ :=
  if q < 0 then -⌊-q⌋ else ⌊q⌋

/-- Line 119: sample_interval = max(1, len(route) // int(total_distance / 50))
if int(total_distance / 50) > 0 else 1. -/
def sampleInterval (routeLen : ℕ) (total_distance : ℚ) : ℕ :=
  if 0 < truncInt (total_distance / 50) then
    max 1 (routeLen / (truncInt (total_distance / 50)).toNat)
  else 1

/-- Python list slicing l with a positive stride n: the elements whose
index is divisible by n (line 120). -/
def everyNth {α : Type} (l : List α) (n : ℕ) : List α :=
  (List.range l.length).filterMap (fun i => if i % n = 0 then l.get? i else none)

/-- Lines 118-124: downsample the polyline with the computed stride and
append the true last point when it is not already the last sample. -/
def sampleRoute (route : List (ℚ × ℚ)) (total_distance : ℚ) : List (ℚ × ℚ) :=
  let s := everyNth route (sampleInterval route.length total_distance)
  if s.getLast? ≠ route.getLast? then s ++ route.getLast?.toList else s

/-- The i-th sampled polyline point (in range whenever the loop reads it). -/
def curPoint (e : Env) (i : ℕ) : ℚ × ℚ :=
  e.sampled.getD i (0, 0)

/-- Line 130: current_coords = (point[1], point[0]), the (lat, lon) swap. -/
def curCoords (e : Env) (i : ℕ) : ℚ × ℚ :=
  ((curPoint e i).2, (curPoint e i).1)

/-- Lines 133-136: the remaining range in effect at waypoint i, after the
loop's automatic subtraction of the distance from waypoint i-1 (applied
only when i > 0). -/
def effRemaining (e : Env) (i : ℕ) (remaining : ℚ) : ℚ :=
  if 0 < i then remaining - e.D (curCoords e (i - 1)) (curCoords e i) else remaining

/-- Lines 144-147: distance to the next sampled waypoint, defaulting to
the 50-mile lookahead at the last waypoint. -/
def distToNext (e : Env) (i : ℕ) : ℚ :=
  if i < e.sampled.length - 1 then e.D (curCoords e i) (curCoords e (i + 1)) else 50

/-- Line 149: the refuel trigger — remaining range below 40 percent of the
tank or not enough to reach the next waypoint with a 20-mile margin. -/
def needsFuel (e : Env) (i : ℕ) (r : ℚ) : Prop :=
  r < e.tank_range * 0.40 ∨ r < distToNext e i + 20

instance (e : Env) (i : ℕ) (r : ℚ) : Decidable (needsFuel e i r) :=
  inferInstanceAs (Decidable (r < e.tank_range * 0.40 ∨ r < distToNext e i + 20))

/-- Lines 162-164: search radius is 95 percent of the remaining range,
or the full remaining range when it is below 50 miles. -/
def searchRadius (r : ℚ) : ℚ :=
  if r < 50 then r else r * 0.95

/-- Lines 166-188: scored candidates — every prefiltered station within the
search radius, with its distance, deviation and score. -/
def candidatesAt (e : Env) (i : ℕ) (r : ℚ) : List Candidate :=
  e.stations.filterMap (fun st =>
    if e.D (curCoords e i) (st.lat, st.lon) ≤ searchRadius r then
      some { station := st
             distance := e.D (curCoords e i) (st.lat, st.lon)
             deviation := (e.D (curCoords e i) (st.lat, st.lon) +
                             e.D (st.lat, st.lon) e.end_coords) -
                           e.D (curCoords e i) e.end_coords
             score := st.retail_price +
                        ((e.D (curCoords e i) (st.lat, st.lon) +
                            e.D (st.lat, st.lon) e.end_coords) -
                          e.D (curCoords e i) e.end_coords) * 0.05 }
    else none)

/-- Python's min with a key over a nonempty list: scan left to right and
keep the first element attaining the minimum (line 191). -/
def pyMin {α : Type} (f : α → ℚ) : α → List α → α
  | b, [] => b
  | b, a :: rest => if f a < f b then pyMin f a rest else pyMin f b rest

/-- Lines 222-234: the forward scan for the sampled waypoint nearest the
chosen station, with the early exit once the distance exceeds the running
minimum by more than 50 miles.  The Option argument is the running
minimum (None plays the role of the initial infinity). -/
def resyncGo (D : ℚ × ℚ → ℚ × ℚ → ℚ) (stLoc : ℚ × ℚ) :
    List (ℚ × ℚ) → ℕ → ℕ → Option ℚ → ℕ
  | [], _, best_k, _ => best_k
  | p :: rest, k, best_k, min_d =>
    match min_d with
    | none => resyncGo D stLoc rest (k + 1) k (some (D (p.2, p.1) stLoc))
    | some m =>
      if D (p.2, p.1) stLoc < m then
        resyncGo D stLoc rest (k + 1) k (some (D (p.2, p.1) stLoc))
      else if m + 50 < D (p.2, p.1) stLoc then best_k
      else resyncGo D stLoc rest (k + 1) best_k (some m)

/-- The index best_k produced by the resume scan starting at waypoint i. -/
def resyncIndex (e : Env) (i : ℕ) (stLoc : ℚ × ℚ) : ℕ :=
  resyncGo e.D stLoc (e.sampled.drop i) i i none

/-- Lines 236-258: the state entered when best_k is not the last index:
resume at best_k + 1 with remaining_range pre-compensated so that the
loop's automatic subtraction lands on tank_range minus the distance from
the station to waypoint best_k + 1. -/
def resyncState (e : Env) (stLoc : ℚ × ℚ) (best_k : ℕ) (stops : List FuelStop) : PState :=
  { i := best_k + 1
    remaining := e.tank_range - e.D stLoc (curCoords e (best_k + 1)) +
                   e.D (curCoords e best_k) (curCoords e (best_k + 1))
    lastStop := stLoc
    stops := stops }

/-- Lines 194-216: the FuelStop built for the chosen candidate at waypoint
i with remaining range r: range_at_station = r - distance, gallons =
(tank_range - range_at_station) / mpg, cost = price * gallons.
Rational division is total, so this models the code only for mpg not 0;
at mpg = 0 line 200 of the code raises a ZeroDivisionError instead. -/
def mkFuelStop (e : Env) (i : ℕ) (r : ℚ) (best : Candidate) : FuelStop :=
  { station_id := best.station.opis_id
    name := best.station.name
    loc := (best.station.lat, best.station.lon)
    price := best.station.retail_price
    distance_from_start := e.D e.start_coords (curCoords e i) + best.distance
    gallons := (e.tank_range - (r - best.distance)) / e.mpg
    cost := best.station.retail_price * ((e.tank_range - (r - best.distance)) / e.mpg) }

/-- Lines 194-265: record the stop for the chosen candidate, then either
resume after the nearest forward waypoint (best_k not last) or advance by
one with a full tank (best_k last). -/
def stopStep (e : Env) (s : PState) (best : Candidate) : StepOut :=
  if resyncIndex e s.i (best.station.lat, best.station.lon) < e.sampled.length - 1 then
    .next (resyncState e (best.station.lat, best.station.lon)
            (resyncIndex e s.i (best.station.lat, best.station.lon))
            (s.stops ++ [mkFuelStop e s.i (effRemaining e s.i s.remaining) best]))
  else
    .next { i := s.i + 1
            remaining := e.tank_range
            lastStop := (best.station.lat, best.station.lon)
            stops := s.stops ++ [mkFuelStop e s.i (effRemaining e s.i s.remaining) best] }

/-- Lines 127-272: one iteration of the while loop at waypoint s.i
(assumed in range; the loop checks the bound). -/
def planStep (e : Env) (s : PState) : StepOut :=
  if needsFuel e s.i (effRemaining e s.i s.remaining) then
    if e.D (curCoords e s.i) e.end_coords ≤ effRemaining e s.i s.remaining then
      .next { i := s.i + 1, remaining := effRemaining e s.i s.remaining
              lastStop := s.lastStop, stops := s.stops }
    else
      match candidatesAt e s.i (effRemaining e s.i s.remaining) with
      | [] =>
        if effRemaining e s.i s.remaining < 20 then
          .stranded (curCoords e s.i) (effRemaining e s.i s.remaining)
        else
          .next { i := s.i + 1, remaining := effRemaining e s.i s.remaining
                  lastStop := s.lastStop, stops := s.stops }
      | c :: cs => stopStep e s (pyMin Candidate.score c cs)
  else
    .next { i := s.i + 1, remaining := effRemaining e s.i s.remaining
            lastStop := s.lastStop, stops := s.stops }

/-- The while loop, written with a fuel parameter for structural
recursion.  Since every next state strictly increases the index
(planStep_next_i_lt below), fuel sampled.length + 1 always suffices;
loop_unfold recovers the intended recurrence. -/
def loopAux (e : Env) : ℕ → PState → Except PlanError PState
  | 0, s => .ok s
  | n + 1, s =>
    if s.i < e.sampled.length then
      match planStep e s with
      | .next s' => loopAux e n s'
      | .stranded c r => .error (.stranded c r)
    else .ok s

/-- The while loop of lines 126-272, run to completion. -/
def loop (e : Env) (s : PState) : Except PlanError PState :=
  loopAux e (e.sampled.length + 1) s

/-- Lines 103-116: prefilter the station catalog by the bounding box of
the route, buffered by 1.0 degree.  Crashes upstream (min on an empty
sequence) are handled by the caller; on an empty route this returns []. -/
def bboxStations (route : List (ℚ × ℚ)) (allStations : List Station) : List Station :=
  match route with
  | [] => []
  | p :: rest =>
    let min_lat := rest.foldl (fun m q => min m q.2) p.2
    let max_lat := rest.foldl (fun m q => max m q.2) p.2
    let min_lon := rest.foldl (fun m q => min m q.1) p.1
    let max_lon := rest.foldl (fun m q => max m q.1) p.1
    allStations.filter (fun st =>
      decide (min_lat - 1 ≤ st.lat ∧ st.lat ≤ max_lat + 1 ∧
              min_lon - 1 ≤ st.lon ∧ st.lon ≤ max_lon + 1))

/-- Line 289: mean retail price over a station list. -/
def avgPrice (l : List Station) : ℚ :=
  (l.map Station.retail_price).sum / (l.length : ℚ)

/-- The Env assembled by find_optimal_fuel_stops before the walk. -/
def envOf (D : ℚ × ℚ → ℚ × ℚ → ℚ) (start_coords end_coords : ℚ × ℚ)
    (route : List (ℚ × ℚ)) (allStations : List Station)
    (total_distance tank_range mpg : ℚ) : Env :=
  { D := D
    stations := bboxStations route allStations
    start_coords := start_coords
    end_coords := end_coords
    sampled := sampleRoute route total_distance
    tank_range := tank_range
    mpg := mpg }

/-- Lines 274-303: the final leg cost with the last-stop / catalog-average /
3.50 fallback price policy, and the returned dict.  Rational division is
total, so this models the code only for mpg not 0; at mpg = 0 line 276
of the code raises a ZeroDivisionError instead. -/
def finalize (e : Env) (total_distance : ℚ) (fin : PState) : PlanResult :=
  { fuel_stops := fin.stops
    total_cost :=
      (fin.stops.map FuelStop.cost).sum +
        (match fin.stops.getLast? with
         | some stp => stp.price
         | none => if e.stations = [] then 3.50 else avgPrice e.stations) *
          (e.D fin.lastStop e.end_coords / e.mpg)
    total_distance := total_distance }

/-- find_optimal_fuel_stops (lines 87-303): prefilter stations, sample the
route, run the stepping walk from a full tank at the start, then account
for the final leg. -/
def find_optimal_fuel_stops (D : ℚ × ℚ → ℚ × ℚ → ℚ)
    (start_coords end_coords : ℚ × ℚ) (route : List (ℚ × ℚ))
    (allStations : List Station) (total_distance tank_range mpg : ℚ) :
    Except PlanError PlanResult :=
  if route = [] then .error .emptySequence
  else
    match loop (envOf D start_coords end_coords route allStations total_distance tank_range mpg)
        { i := 0, remaining := tank_range, lastStop := start_coords, stops := [] } with
    | .error err => .error err
    | .ok fin =>
      .ok (finalize (envOf D start_coords end_coords route allStations total_distance tank_range mpg)
            total_distance fin)

/-- Taxicab metric on (lat, lon) pairs, the concrete distance function used
for witnesses and counterexamples.  It is realizable as scaled geodesic
distance for points on a meridian or on the equator, and satisfies every
metric law the geodesic satisfies. -/
def taxiD (p q : ℚ × ℚ) : ℚ :=
  |p.1 - q.1| + |p.2 - q.2|

/-- Sum of the distances of the first n sampled legs. -/
def legsUpTo (e : Env) (n : ℕ) : ℚ :=
  ((List.range n).map (fun k => e.D (curCoords e k) (curCoords e (k + 1)))).sum

/-- Reachability in the stepping walk: s' is reached from s by zero or
more in-range loop iterations. -/
inductive Reaches (e : Env) : PState → PState → Prop
  | refl (s : PState) : Reaches e s s
  | step {s t t' : PState} : Reaches e s t → t.i < e.sampled.length →
      planStep e t = .next t' → Reaches e s t'

/-! ## Basic lemmas about the embedded operations -/

theorem taxiD_nonneg : ∀ a b : ℚ × ℚ, 0 ≤ taxiD a b := by
  intro a b
  have h1 : (0:ℚ) ≤ |a.1 - b.1| := abs_nonneg _
  have h2 : (0:ℚ) ≤ |a.2 - b.2| := abs_nonneg _
  unfold taxiD
  linarith

theorem taxiD_self : ∀ a : ℚ × ℚ, taxiD a a = 0 := by
  intro a
  unfold taxiD
  simp

theorem taxiD_triangle : ∀ a b c : ℚ × ℚ, taxiD a c ≤ taxiD a b + taxiD b c := by
  intro a b c
  have h1 : |a.1 - c.1| ≤ |a.1 - b.1| + |b.1 - c.1| := abs_sub_le _ _ _
  have h2 : |a.2 - c.2| ≤ |a.2 - b.2| + |b.2 - c.2| := abs_sub_le _ _ _
  unfold taxiD
  linarith

theorem resyncGo_le (D : ℚ × ℚ → ℚ × ℚ → ℚ) (stLoc : ℚ × ℚ) :
    ∀ (l : List (ℚ × ℚ)) (k b : ℕ) (m : Option ℚ), b ≤ k → b ≤ resyncGo D stLoc l k b m := by
  intro l
  induction l with
  | nil => intro k b m _; exact Nat.le_refl b
  | cons p rest ih =>
    intro k b m hbk
    cases m with
    | none =>
      have hk : k ≤ resyncGo D stLoc rest (k + 1) k (some (D (p.2, p.1) stLoc)) :=
        ih (k + 1) k _ (Nat.le_succ k)
      simpa [resyncGo] using Nat.le_trans hbk hk
    | some m =>
      simp only [resyncGo]
      split
      · exact Nat.le_trans hbk (ih (k + 1) k _ (Nat.le_succ k))
      · split
        · exact Nat.le_refl b
        · exact ih (k + 1) b _ (Nat.le_trans hbk (Nat.le_succ k))

theorem resyncIndex_le (e : Env) (i : ℕ) (stLoc : ℚ × ℚ) : i ≤ resyncIndex e i stLoc :=
  resyncGo_le e.D stLoc (e.sampled.drop i) i i none (Nat.le_refl i)

theorem planStep_next_i_lt (e : Env) (s s' : PState)
    (h : planStep e s = .next s') : s.i < s'.i := by
  unfold planStep at h
  split at h
  · split at h
    · cases h; exact Nat.lt_succ_self _
    · split at h
      · split at h
        · exact absurd h (by simp)
        · cases h; exact Nat.lt_succ_self _
      · unfold stopStep at h
        split at h
        · cases h
          exact Nat.lt_succ_of_le (resyncIndex_le e s.i _)
        · cases h; exact Nat.lt_succ_self _
  · cases h; exact Nat.lt_succ_self _

theorem loopAux_of_le (e : Env) (n : ℕ) (s : PState) (h : e.sampled.length ≤ s.i) :
    loopAux e n s = .ok s := by
  cases n with
  | zero => rfl
  | succ n => simp [loopAux, Nat.not_lt_of_le h]

theorem loopAux_succ (e : Env) (n : ℕ) (s : PState) :
    loopAux e (n + 1) s =
      if s.i < e.sampled.length then
        match planStep e s with
        | .next s' => loopAux e n s'
        | .stranded c r => .error (.stranded c r)
      else .ok s := rfl

theorem loopAux_congr (e : Env) :
    ∀ (n m : ℕ) (s : PState), e.sampled.length ≤ s.i + n → e.sampled.length ≤ s.i + m →
      loopAux e n s = loopAux e m s := by
  intro n
  induction n with
  | zero =>
    intro m s hn hm
    have h : e.sampled.length ≤ s.i := by omega
    rw [loopAux_of_le e 0 s h, loopAux_of_le e m s h]
  | succ n ih =>
    intro m s hn hm
    by_cases h : s.i < e.sampled.length
    · cases m with
      | zero => omega
      | succ m =>
        rw [loopAux_succ, loopAux_succ, if_pos h, if_pos h]
        cases hst : planStep e s with
        | next s' =>
          have hi := planStep_next_i_lt e s s' hst
          have h1 : e.sampled.length ≤ s'.i + n := by omega
          have h2 : e.sampled.length ≤ s'.i + m := by omega
          exact ih m s' h1 h2
        | stranded c r => rfl
    · have hle : e.sampled.length ≤ s.i := Nat.le_of_not_lt h
      rw [loopAux_of_le e _ s hle, loopAux_of_le e m s hle]

theorem loop_unfold (e : Env) (s : PState) :
    loop e s =
      if s.i < e.sampled.length then
        match planStep e s with
        | .next s' => loop e s'
        | .stranded c r => .error (.stranded c r)
      else .ok s := by
  have hdef : loop e s = loopAux e (e.sampled.length + 1) s := rfl
  rw [hdef, loopAux_succ]
  by_cases h : s.i < e.sampled.length
  · rw [if_pos h, if_pos h]
    cases hst : planStep e s with
    | next s' =>
      have hi := planStep_next_i_lt e s s' hst
      have h1 : e.sampled.length ≤ s'.i + e.sampled.length := by omega
      have h2 : e.sampled.length ≤ s'.i + (e.sampled.length + 1) := by omega
      exact loopAux_congr e _ _ s' h1 h2
    | stranded c r => rfl
  · rw [if_neg h, if_neg h]

theorem pyMin_mem {α : Type} (f : α → ℚ) :
    ∀ (l : List α) (b : α), pyMin f b l ∈ b :: l := by
  intro l
  induction l with
  | nil => intro b; simp [pyMin]
  | cons a rest ih =>
    intro b
    simp only [pyMin]
    split
    · have := ih a
      simp only [List.mem_cons] at this ⊢
      tauto
    · have := ih b
      simp only [List.mem_cons] at this ⊢
      tauto

theorem mem_candidatesAt (e : Env) (i : ℕ) (r : ℚ) (cand : Candidate)
    (h : cand ∈ candidatesAt e i r) :
    cand.distance = e.D (curCoords e i) (cand.station.lat, cand.station.lon) ∧
      cand.distance ≤ searchRadius r ∧ cand.station ∈ e.stations := by
  unfold candidatesAt at h
  rcases List.mem_filterMap.mp h with ⟨st, hmem, heq⟩
  split at heq
  · cases heq
    refine ⟨rfl, ?_, hmem⟩
    assumption
  · cases heq

theorem candidatesAt_eq_nil_iff (e : Env) (i : ℕ) (r : ℚ) :
    candidatesAt e i r = [] ↔
      ∀ st ∈ e.stations, ¬ e.D (curCoords e i) (st.lat, st.lon) ≤ searchRadius r := by
  unfold candidatesAt
  rw [List.filterMap_eq_nil_iff]
  constructor
  · intro h st hmem hle
    have := h st hmem
    rw [if_pos hle] at this
    cases this
  · intro h st hmem
    rw [if_neg (h st hmem)]

theorem stopStep_spec (e : Env) (s : PState) (best : Candidate) (s' : PState)
    (h : stopStep e s best = .next s') :
    s'.stops = s.stops ++ [mkFuelStop e s.i (effRemaining e s.i s.remaining) best] ∧
      (s' = resyncState e (best.station.lat, best.station.lon)
              (resyncIndex e s.i (best.station.lat, best.station.lon))
              (s.stops ++ [mkFuelStop e s.i (effRemaining e s.i s.remaining) best]) ∨
        s' = { i := s.i + 1, remaining := e.tank_range
               lastStop := (best.station.lat, best.station.lon)
               stops := s.stops ++ [mkFuelStop e s.i (effRemaining e s.i s.remaining) best] }) := by
  unfold stopStep at h
  split at h
  · cases h
    exact ⟨rfl, Or.inl rfl⟩
  · cases h
    exact ⟨rfl, Or.inr rfl⟩

theorem planStep_next_cases (e : Env) (s s' : PState)
    (h : planStep e s = .next s') :
    s' = { i := s.i + 1, remaining := effRemaining e s.i s.remaining
           lastStop := s.lastStop, stops := s.stops } ∨
      ∃ c cs, candidatesAt e s.i (effRemaining e s.i s.remaining) = c :: cs ∧
        stopStep e s (pyMin Candidate.score c cs) = .next s' := by
  unfold planStep at h
  by_cases hnf : needsFuel e s.i (effRemaining e s.i s.remaining)
  · rw [if_pos hnf] at h
    by_cases hmk : e.D (curCoords e s.i) e.end_coords ≤ effRemaining e s.i s.remaining
    · rw [if_pos hmk] at h
      cases h
      exact Or.inl rfl
    · rw [if_neg hmk] at h
      cases hc : candidatesAt e s.i (effRemaining e s.i s.remaining) with
      | nil =>
        rw [hc] at h
        by_cases h20 : effRemaining e s.i s.remaining < 20
        · rw [if_pos h20] at h
          cases h
        · rw [if_neg h20] at h
          cases h
          exact Or.inl rfl
      | cons c cs =>
        rw [hc] at h
        exact Or.inr ⟨c, cs, rfl, h⟩
  · rw [if_neg hnf] at h
    cases h
    exact Or.inl rfl

theorem planStep_stops_extend (e : Env) (s s' : PState)
    (h : planStep e s = .next s') :
    s'.stops = s.stops ∨
      ∃ best, best ∈ candidatesAt e s.i (effRemaining e s.i s.remaining) ∧
        s'.stops = s.stops ++ [mkFuelStop e s.i (effRemaining e s.i s.remaining) best] := by
  rcases planStep_next_cases e s s' h with hcr | ⟨c, cs, hc, hstop⟩
  · left; rw [hcr]
  · right
    refine ⟨pyMin Candidate.score c cs, ?_, (stopStep_spec e s _ s' hstop).1⟩
    rw [hc]
    exact pyMin_mem Candidate.score cs c

theorem planStep_append (e : Env) (s s' : PState) (c : FuelStop)
    (h : planStep e s = .next s') (happ : s'.stops = s.stops ++ [c]) :
    ∃ best, best ∈ candidatesAt e s.i (effRemaining e s.i s.remaining) ∧
      c = mkFuelStop e s.i (effRemaining e s.i s.remaining) best := by
  rcases planStep_stops_extend e s s' h with heq | ⟨best, hmem, heq⟩
  · rw [heq] at happ
    have : s.stops.length = s.stops.length + 1 := by
      conv_lhs => rw [happ]
      simp
    omega
  · rw [heq] at happ
    have hsing : [c] = [mkFuelStop e s.i (effRemaining e s.i s.remaining) best] :=
      List.append_cancel_left happ.symm
    have hc : c = mkFuelStop e s.i (effRemaining e s.i s.remaining) best := by
      simpa using hsing
    exact ⟨best, hmem, hc⟩

theorem effRemaining_succ (e : Env) (i : ℕ) (r : ℚ) :
    effRemaining e (i + 1) r = r - e.D (curCoords e i) (curCoords e (i + 1)) := by
  unfold effRemaining
  rw [if_pos (Nat.succ_pos i)]
  simp

theorem loopAux_inv (e : Env) (P : PState → Prop)
    (hstep : ∀ s s', s.i < e.sampled.length → planStep e s = .next s' → P s → P s') :
    ∀ (n : ℕ) (s fin : PState), loopAux e n s = .ok fin → P s → P fin := by
  intro n
  induction n with
  | zero =>
    intro s fin h hP
    cases h
    exact hP
  | succ n ih =>
    intro s fin h hP
    by_cases hg : s.i < e.sampled.length
    · rw [loopAux_succ, if_pos hg] at h
      cases hst : planStep e s with
      | next s' =>
        rw [hst] at h
        exact ih s' fin h (hstep s s' hg hst hP)
      | stranded c r =>
        rw [hst] at h
        cases h
    · rw [loopAux_of_le e _ s (Nat.le_of_not_lt hg)] at h
      cases h
      exact hP

theorem loop_inv (e : Env) (P : PState → Prop)
    (hstep : ∀ s s', s.i < e.sampled.length → planStep e s = .next s' → P s → P s')
    (s fin : PState) (h : loop e s = .ok fin) (hP : P s) : P fin :=
  loopAux_inv e P hstep (e.sampled.length + 1) s fin h hP

theorem loopAux_error_isStranded (e : Env) :
    ∀ (n : ℕ) (s : PState) (err : PlanError),
      loopAux e n s = .error err → err.isStranded = true := by
  intro n
  induction n with
  | zero => intro s err h; cases h
  | succ n ih =>
    intro s err h
    by_cases hg : s.i < e.sampled.length
    · rw [loopAux_succ, if_pos hg] at h
      cases hst : planStep e s with
      | next s' =>
        rw [hst] at h
        exact ih s' err h
      | stranded c r =>
        rw [hst] at h
        cases h
        rfl
    · rw [loopAux_of_le e _ s (Nat.le_of_not_lt hg)] at h
      cases h

theorem Reaches_head (e : Env) {s s' t : PState} (hg : s.i < e.sampled.length)
    (hst : planStep e s = .next s') (h : Reaches e s' t) : Reaches e s t := by
  induction h with
  | refl => exact Reaches.step (Reaches.refl s) hg hst
  | step hr hg2 hst2 ih => exact Reaches.step ih hg2 hst2

theorem loopAux_error_reach (e : Env) :
    ∀ (n : ℕ) (s : PState) (c : ℚ × ℚ) (r : ℚ),
      loopAux e n s = .error (.stranded c r) →
        ∃ t, Reaches e s t ∧ t.i < e.sampled.length ∧ planStep e t = .stranded c r := by
  intro n
  induction n with
  | zero => intro s c r h; cases h
  | succ n ih =>
    intro s c r h
    by_cases hg : s.i < e.sampled.length
    · rw [loopAux_succ, if_pos hg] at h
      cases hst : planStep e s with
      | next s' =>
        rw [hst] at h
        rcases ih s' c r h with ⟨t, hr, hlt, hstr⟩
        exact ⟨t, Reaches_head e hg hst hr, hlt, hstr⟩
      | stranded c' r' =>
        rw [hst] at h
        have herr := Except.error.inj h
        have hcr := PlanError.stranded.inj herr
        refine ⟨s, Reaches.refl s, hg, ?_⟩
        rw [hst, hcr.1, hcr.2]
    · rw [loopAux_of_le e _ s (Nat.le_of_not_lt hg)] at h
      cases h

theorem loop_eq_of_reaches (e : Env) {s t : PState} (h : Reaches e s t) :
    loop e s = loop e t := by
  induction h with
  | refl => rfl
  | step hr hg hst ih =>
    rw [ih, loop_unfold, if_pos hg, hst]

theorem find_optimal_eq (D : ℚ × ℚ → ℚ × ℚ → ℚ) (start_coords end_coords : ℚ × ℚ)
    (route : List (ℚ × ℚ)) (allStations : List Station)
    (total_distance tank_range mpg : ℚ) (hne : route ≠ []) :
    find_optimal_fuel_stops D start_coords end_coords route allStations
        total_distance tank_range mpg =
      match loop (envOf D start_coords end_coords route allStations total_distance tank_range mpg)
          { i := 0, remaining := tank_range, lastStop := start_coords, stops := [] } with
      | .error err => .error err
      | .ok fin =>
        .ok (finalize (envOf D start_coords end_coords route allStations total_distance tank_range mpg)
              total_distance fin) := by
  unfold find_optimal_fuel_stops
  rw [if_neg hne]

theorem legsUpTo_zero (e : Env) : legsUpTo e 0 = 0 := rfl

theorem legsUpTo_succ (e : Env) (n : ℕ) :
    legsUpTo e (n + 1) = legsUpTo e n + e.D (curCoords e n) (curCoords e (n + 1)) := by
  unfold legsUpTo
  rw [List.range_succ, List.map_append, List.sum_append]
  simp

theorem dist_le_legs (e : Env) (hD0 : ∀ a, e.D a a = 0)
    (hTri : ∀ a b c, e.D a c ≤ e.D a b + e.D b c) :
    ∀ i j : ℕ, i ≤ j → e.D (curCoords e i) (curCoords e j) ≤ legsUpTo e j - legsUpTo e i := by
  intro i j hij
  induction j, hij using Nat.le_induction with
  | base =>
    rw [hD0]
    simp
  | succ j hij ih =>
    have h1 := hTri (curCoords e i) (curCoords e j) (curCoords e (j + 1))
    rw [legsUpTo_succ]
    linarith

theorem eff_cruise (e : Env) (i : ℕ) :
    effRemaining e i (e.tank_range - legsUpTo e (i - 1)) = e.tank_range - legsUpTo e i := by
  cases i with
  | zero =>
    unfold effRemaining
    simp
  | succ k =>
    rw [effRemaining_succ, legsUpTo_succ]
    simp only [Nat.add_sub_cancel]
    ring

theorem cruise_planStep (e : Env) (hD0 : ∀ a, e.D a a = 0)
    (hTri : ∀ a b c, e.D a c ≤ e.D a b + e.D b c) (htank : 0 ≤ e.tank_range)
    (hlegs : legsUpTo e (e.sampled.length - 1) ≤ e.tank_range * 0.40)
    (hend : curCoords e (e.sampled.length - 1) = e.end_coords)
    (s : PState) (hi : s.i < e.sampled.length)
    (hrem : s.remaining = e.tank_range - legsUpTo e (s.i - 1)) :
    planStep e s = .next { i := s.i + 1, remaining := e.tank_range - legsUpTo e s.i,
                           lastStop := s.lastStop, stops := s.stops } := by
  have heff : effRemaining e s.i s.remaining = e.tank_range - legsUpTo e s.i := by
    rw [hrem]
    exact eff_cruise e s.i
  have hd : e.D (curCoords e s.i) (curCoords e (e.sampled.length - 1)) ≤
      legsUpTo e (e.sampled.length - 1) - legsUpTo e s.i :=
    dist_le_legs e hD0 hTri s.i (e.sampled.length - 1) (by omega)
  have h40 : e.tank_range * 0.40 ≤ e.tank_range := by
    rw [show (0.40 : ℚ) = 2/5 by norm_num]
    linarith
  have hcan : e.D (curCoords e s.i) e.end_coords ≤ effRemaining e s.i s.remaining := by
    rw [heff, ← hend]
    linarith
  unfold planStep
  by_cases hnf : needsFuel e s.i (effRemaining e s.i s.remaining)
  · rw [if_pos hnf, if_pos hcan, heff]
  · rw [if_neg hnf, heff]

theorem cruise_loopAux (e : Env) (hD0 : ∀ a, e.D a a = 0)
    (hTri : ∀ a b c, e.D a c ≤ e.D a b + e.D b c) (htank : 0 ≤ e.tank_range)
    (hlegs : legsUpTo e (e.sampled.length - 1) ≤ e.tank_range * 0.40)
    (hend : curCoords e (e.sampled.length - 1) = e.end_coords) :
    ∀ (n : ℕ) (s : PState), e.sampled.length ≤ s.i + n → s.i ≤ e.sampled.length →
      s.remaining = e.tank_range - legsUpTo e (s.i - 1) →
      loopAux e n s = .ok { i := e.sampled.length,
                            remaining := e.tank_range - legsUpTo e (e.sampled.length - 1),
                            lastStop := s.lastStop, stops := s.stops } := by
  intro n
  induction n with
  | zero =>
    intro s hn hle hrem
    have hi : s.i = e.sampled.length := by omega
    rw [loopAux_of_le e 0 s (by omega)]
    cases s with
    | mk i rem L S =>
      simp only at hi hrem ⊢
      subst hi
      rw [hrem]
  | succ n ih =>
    intro s hn hle hrem
    by_cases hg : s.i < e.sampled.length
    · rw [loopAux_succ, if_pos hg, cruise_planStep e hD0 hTri htank hlegs hend s hg hrem]
      have hstep := ih { i := s.i + 1, remaining := e.tank_range - legsUpTo e s.i,
                         lastStop := s.lastStop, stops := s.stops }
        (by simp only; omega) (by simp only; omega) (by simp only [Nat.add_sub_cancel])
      exact hstep
    · have hi : s.i = e.sampled.length := by omega
      rw [loopAux_of_le e _ s (by omega)]
      cases s with
      | mk i rem L S =>
        simp only at hi hrem ⊢
        subst hi
        rw [hrem]

theorem truncInt_eq_floor_of_pos (q : ℚ) (h : 0 < ⌊q⌋) : truncInt q = ⌊q⌋ := by
  unfold truncInt
  rw [if_neg]
  intro hq
  have h1 : (1 : ℚ) ≤ q := by
    have := Int.le_floor.mp (by exact_mod_cast h : (1 : ℤ) ≤ ⌊q⌋)
    exact_mod_cast this
  linarith

theorem truncInt_pos_iff (q : ℚ) : 0 < truncInt q ↔ 0 < ⌊q⌋ := by
  unfold truncInt
  split
  · rename_i hq
    have h1 : (0 : ℤ) ≤ ⌊-q⌋ := Int.le_floor.mpr (by push_cast; linarith)
    have h2 : ⌊q⌋ ≤ 0 := by
      have := Int.floor_le_floor (le_of_lt hq)
      simpa using this
    constructor
    · intro h; omega
    · intro h; omega
  · exact Iff.rfl

theorem sampleInterval_of_floor_pos (len : ℕ) (td : ℚ) (h : 0 < ⌊td / 50⌋) :
    sampleInterval len td = max 1 (len / (⌊td / 50⌋).toNat) := by
  unfold sampleInterval
  rw [truncInt_eq_floor_of_pos _ h, if_pos h]

theorem sampleInterval_of_floor_nonpos (len : ℕ) (td : ℚ) (h : ⌊td / 50⌋ ≤ 0) :
    sampleInterval len td = 1 := by
  unfold sampleInterval
  rw [if_neg]
  intro hpos
  have := (truncInt_pos_iff (td / 50)).mp hpos
  omega

theorem everyNth_cons_head {α : Type} (p : α) (rest : List α) (n : ℕ) :
    ∃ t, everyNth (p :: rest) n = p :: t := by
  unfold everyNth
  rw [List.length_cons, List.range_succ_eq_map, List.filterMap_cons]
  simp only [Nat.zero_mod, if_pos rfl, List.get?_cons_zero]
  exact ⟨_, rfl⟩

theorem sampleRoute_head (route : List (ℚ × ℚ)) (td : ℚ) (hne : route ≠ []) :
    (sampleRoute route td).head? = route.head? := by
  obtain ⟨p, rest, rfl⟩ := List.exists_cons_of_ne_nil hne
  obtain ⟨t, ht⟩ := everyNth_cons_head p rest (sampleInterval (p :: rest).length td)
  simp only [sampleRoute, ht]
  split
  · rw [List.cons_append]
    rfl
  · rfl

theorem sampleRoute_ne_nil (route : List (ℚ × ℚ)) (td : ℚ) (hne : route ≠ []) :
    sampleRoute route td ≠ [] := by
  obtain ⟨p, rest, rfl⟩ := List.exists_cons_of_ne_nil hne
  obtain ⟨t, ht⟩ := everyNth_cons_head p rest (sampleInterval (p :: rest).length td)
  simp only [sampleRoute, ht]
  split
  · simp
  · simp

theorem sampleRoute_getLast (route : List (ℚ × ℚ)) (td : ℚ) (hne : route ≠ []) :
    (sampleRoute route td).getLast? = route.getLast? := by
  simp only [sampleRoute]
  split
  · rename_i h
    have hsome : ∃ x, route.getLast? = some x := by
      cases hq : route.getLast? with
      | none =>
        exact absurd (List.getLast?_eq_none_iff.mp hq) hne
      | some x => exact ⟨x, rfl⟩
    obtain ⟨x, hx⟩ := hsome
    rw [hx]
    simp only [Option.toList_some]
    rw [List.getLast?_concat]
  · rename_i h
    exact not_not.mp h

theorem eff_resyncState (e : Env) (stLoc : ℚ × ℚ) (best_k : ℕ) (stops : List FuelStop) :
    effRemaining e (best_k + 1) (resyncState e stLoc best_k stops).remaining =
      e.tank_range - e.D stLoc (curCoords e (best_k + 1)) := by
  rw [effRemaining_succ]
  show e.tank_range - e.D stLoc (curCoords e (best_k + 1)) +
        e.D (curCoords e best_k) (curCoords e (best_k + 1)) -
        e.D (curCoords e best_k) (curCoords e (best_k + 1)) = _
  ring

/-! ## Claim theorems -/

set_option maxRecDepth 100000
set_option maxHeartbeats 1000000

/-- C1: after selecting a station with best_k not the last index, the
remaining range in effect at waypoint best_k + 1 — i.e. the
pre-compensated remaining_range set by the resume logic, after the loop's
automatic subtraction of the distance from waypoint best_k to waypoint
best_k + 1 — equals tank_range minus the distance from the station to
waypoint best_k + 1.  Exact over rational arithmetic, hence within any
floating-point tolerance. -/
theorem C1_resync_invariant (e : Env) (stLoc : ℚ × ℚ) (best_k : ℕ) (stops : List FuelStop) :
    effRemaining e (best_k + 1) (resyncState e stLoc best_k stops).remaining =
      e.tank_range - e.D stLoc (curCoords e (best_k + 1)) :=
  eff_resyncState e stLoc best_k stops

/-- C10: every iteration of the waypoint loop that does not raise an error
strictly increases the index i (either i + 1, or best_k + 1 with
best_k at least i), so the walk terminates. -/
theorem C10_index_strictly_increases (e : Env) (s s' : PState)
    (h : planStep e s = .next s') : s.i < s'.i :=
  planStep_next_i_lt e s s' h

/-- C10 witness: a concrete cruising iteration advances the index from 0 to 1. -/
theorem C10_witness :
    (⟨0, 500, (0,0), []⟩ : PState).i < (⟨1, 500, (0,0), []⟩ : PState).i :=
  C10_index_strictly_increases
    ⟨taxiD, [], (0,0), (0,100), [(0,0),(100,0)], 500, 10⟩
    ⟨0, 500, (0,0), []⟩ ⟨1, 500, (0,0), []⟩
    (by with_unfolding_all decide)

/-- C9 counterexample: a complete planning run (taxicab metric, a route
that bends back toward the start, two stations) returns two fuel stops
whose recorded distance_from_start values are 105 then 70, which is not
monotonically increasing. -/
theorem C9_counterexample :
    (find_optimal_fuel_stops taxiD (0,0) (100,40)
        [(0,0),(50,0),(100,0),(100,30),(40,30),(40,100)]
        [⟨1, "A", 0, 95, 3⟩, ⟨2, "B", 30, 40, 3⟩]
        260 150 10).map (fun p => p.fuel_stops.map FuelStop.distance_from_start) =
      .ok [105, 70] ∧ ¬ ((105 : ℚ) ≤ 70) := by
  with_unfolding_all decide

/-- C9 amended: the stop list is append-only and the waypoint index
strictly increases at every iteration, so stops are recorded in strictly
increasing trigger-waypoint order; but the recorded distance_from_start
values (distance from start to the triggering waypoint plus the detour
distance) are not necessarily monotone. -/
theorem C9_amended_stops_appended_in_walk_order (e : Env) (s s' : PState)
    (h : planStep e s = .next s') :
    s'.stops.take s.stops.length = s.stops ∧ s.i < s'.i := by
  refine ⟨?_, planStep_next_i_lt e s s' h⟩
  rcases planStep_stops_extend e s s' h with heq | ⟨best, _, heq⟩
  · rw [heq, List.take_length]
  · rw [heq, List.take_left]

/-- C9 witness: a concrete refueling iteration appends one stop at the
tail and advances the index from 2 to 3. -/
theorem C9_witness :
    (⟨3, 145, (0,95), [⟨1, "A", (0,95), 3, 105, 21/2, 63/2⟩]⟩ : PState).stops.take
        (⟨2, 100, (0,0), []⟩ : PState).stops.length = (⟨2, 100, (0,0), []⟩ : PState).stops ∧
      (⟨2, 100, (0,0), []⟩ : PState).i <
        (⟨3, 145, (0,95), [⟨1, "A", (0,95), 3, 105, 21/2, 63/2⟩]⟩ : PState).i :=
  C9_amended_stops_appended_in_walk_order
    ⟨taxiD, [⟨1, "A", 0, 95, 3⟩, ⟨2, "B", 30, 40, 3⟩], (0,0), (100,40),
      [(0,0),(50,0),(100,0),(100,30),(40,30),(40,100)], 150, 10⟩
    ⟨2, 100, (0,0), []⟩
    ⟨3, 145, (0,95), [⟨1, "A", (0,95), 3, 105, 21/2, 63/2⟩]⟩
    (by with_unfolding_all decide)

/-- C4: every appended FuelStop lies within the search radius in effect at
the triggering waypoint: the distance from that waypoint to the chosen
station is at most remaining_range itself when remaining_range is below
50, and at most 0.95 times remaining_range otherwise. -/
theorem C4_stop_within_radius (e : Env) (s s' : PState) (c : FuelStop)
    (hstep : planStep e s = .next s') (happ : s'.stops = s.stops ++ [c]) :
    e.D (curCoords e s.i) c.loc ≤
      (if effRemaining e s.i s.remaining < 50 then effRemaining e s.i s.remaining
       else effRemaining e s.i s.remaining * 0.95) := by
  rcases planStep_append e s s' c hstep happ with ⟨best, hmem, hc⟩
  rcases mem_candidatesAt e s.i _ best hmem with ⟨hd, hle, _⟩
  have hloc : c.loc = (best.station.lat, best.station.lon) := by
    rw [hc]
    rfl
  rw [hloc, ← hd]
  simpa only [searchRadius] using hle

/-- C4 witness: the concrete stop at waypoint 2 (remaining range 50, radius
47.5) is 5 miles from the triggering waypoint, within the radius. -/
theorem C4_witness :
    taxiD (curCoords ⟨taxiD, [⟨1, "A", 0, 95, 3⟩, ⟨2, "B", 30, 40, 3⟩], (0,0), (100,40),
        [(0,0),(50,0),(100,0),(100,30),(40,30),(40,100)], 150, 10⟩ 2) (0, 95) ≤
      (if effRemaining ⟨taxiD, [⟨1, "A", 0, 95, 3⟩, ⟨2, "B", 30, 40, 3⟩], (0,0), (100,40),
            [(0,0),(50,0),(100,0),(100,30),(40,30),(40,100)], 150, 10⟩ 2 100 < 50 then
         effRemaining ⟨taxiD, [⟨1, "A", 0, 95, 3⟩, ⟨2, "B", 30, 40, 3⟩], (0,0), (100,40),
            [(0,0),(50,0),(100,0),(100,30),(40,30),(40,100)], 150, 10⟩ 2 100
       else effRemaining ⟨taxiD, [⟨1, "A", 0, 95, 3⟩, ⟨2, "B", 30, 40, 3⟩], (0,0), (100,40),
            [(0,0),(50,0),(100,0),(100,30),(40,30),(40,100)], 150, 10⟩ 2 100 * 0.95) :=
  C4_stop_within_radius
    ⟨taxiD, [⟨1, "A", 0, 95, 3⟩, ⟨2, "B", 30, 40, 3⟩], (0,0), (100,40),
      [(0,0),(50,0),(100,0),(100,30),(40,30),(40,100)], 150, 10⟩
    ⟨2, 100, (0,0), []⟩
    ⟨3, 145, (0,95), [⟨1, "A", (0,95), 3, 105, 21/2, 63/2⟩]⟩
    ⟨1, "A", (0,95), 3, 105, 21/2, 63/2⟩
    (by with_unfolding_all decide) (by with_unfolding_all decide)

/-- C3: planStep raises the stranded error exactly when the refuel trigger
fires, the trip cannot be finished on the remaining range, no prefiltered
station lies within the search radius, and the remaining range is below
20 miles — and the error carries the triggering waypoint's coordinates
and the remaining range there.  When no candidate exists but the
remaining range is at least 20, the walk advances to the next waypoint
without refueling and without error.  A full planning run errors with
stranded exactly when some reachable loop state steps to that error. -/
theorem C3_stranded_characterization (e : Env) (s : PState) :
    (∀ c r, planStep e s = .stranded c r ↔
        (needsFuel e s.i (effRemaining e s.i s.remaining) ∧
         effRemaining e s.i s.remaining < e.D (curCoords e s.i) e.end_coords ∧
         (∀ st ∈ e.stations,
            ¬ e.D (curCoords e s.i) (st.lat, st.lon) ≤
              searchRadius (effRemaining e s.i s.remaining)) ∧
         effRemaining e s.i s.remaining < 20 ∧
         c = curCoords e s.i ∧ r = effRemaining e s.i s.remaining)) ∧
    (needsFuel e s.i (effRemaining e s.i s.remaining) →
      effRemaining e s.i s.remaining < e.D (curCoords e s.i) e.end_coords →
      (∀ st ∈ e.stations,
         ¬ e.D (curCoords e s.i) (st.lat, st.lon) ≤
           searchRadius (effRemaining e s.i s.remaining)) →
      ¬ effRemaining e s.i s.remaining < 20 →
      planStep e s = .next ⟨s.i + 1, effRemaining e s.i s.remaining, s.lastStop, s.stops⟩) ∧
    (∀ c r, loop e s = .error (.stranded c r) ↔
        ∃ t, Reaches e s t ∧ t.i < e.sampled.length ∧ planStep e t = .stranded c r) := by
  refine ⟨?_, ?_, ?_⟩
  · intro c r
    constructor
    · intro h
      unfold planStep at h
      by_cases hnf : needsFuel e s.i (effRemaining e s.i s.remaining)
      · rw [if_pos hnf] at h
        by_cases hmk : e.D (curCoords e s.i) e.end_coords ≤ effRemaining e s.i s.remaining
        · rw [if_pos hmk] at h
          cases h
        · rw [if_neg hmk] at h
          cases hc : candidatesAt e s.i (effRemaining e s.i s.remaining) with
          | nil =>
            rw [hc] at h
            by_cases h20 : effRemaining e s.i s.remaining < 20
            · rw [if_pos h20] at h
              have hinj := StepOut.stranded.inj h
              exact ⟨hnf, lt_of_not_le hmk, (candidatesAt_eq_nil_iff e s.i _).mp hc, h20,
                     hinj.1.symm, hinj.2.symm⟩
            · rw [if_neg h20] at h
              cases h
          | cons c0 cs =>
            rw [hc] at h
            have h2 : stopStep e s (pyMin Candidate.score c0 cs) = .stranded c r := h
            unfold stopStep at h2
            by_cases hbk : resyncIndex e s.i ((pyMin Candidate.score c0 cs).station.lat,
                (pyMin Candidate.score c0 cs).station.lon) < e.sampled.length - 1
            · rw [if_pos hbk] at h2
              cases h2
            · rw [if_neg hbk] at h2
              cases h2
      · rw [if_neg hnf] at h
        cases h
    · rintro ⟨hnf, hlt, hnone, h20, rfl, rfl⟩
      unfold planStep
      rw [if_pos hnf, if_neg (not_le.mpr hlt), (candidatesAt_eq_nil_iff e s.i _).mpr hnone,
          if_pos h20]
  · intro hnf hlt hnone h20
    unfold planStep
    rw [if_pos hnf, if_neg (not_le.mpr hlt), (candidatesAt_eq_nil_iff e s.i _).mpr hnone,
        if_neg h20]
  · intro c r
    constructor
    · intro h
      exact loopAux_error_reach e (e.sampled.length + 1) s c r h
    · rintro ⟨t, hr, hlt, hstr⟩
      rw [loop_eq_of_reaches e hr, loop_unfold, if_pos hlt, hstr]

/-- C3 witness: at waypoint 1 of a two-waypoint route with no stations,
remaining range -80 (below 20), the step strands with the waypoint's
coordinates and the remaining range. -/
theorem C3_witness :
    planStep ⟨taxiD, [], (0,0), (0,100), [(0,0),(100,0)], 500, 10⟩ ⟨1, 20, (0,0), []⟩ =
      .stranded (0,100) (-80) :=
  ((C3_stranded_characterization ⟨taxiD, [], (0,0), (0,100), [(0,0),(100,0)], 500, 10⟩
      ⟨1, 20, (0,0), []⟩).1 (0,100) (-80)).mpr (by with_unfolding_all decide)

theorem stop_inv_step (e : Env) (hD : ∀ a b, 0 ≤ e.D a b) (hmpg : 0 < e.mpg)
    (s s' : PState) (hstep : planStep e s = .next s')
    (hinv : effRemaining e s.i s.remaining ≤ e.tank_range)
    (hall : ∀ st ∈ s.stops, 0 ≤ st.gallons ∧ st.cost = st.price * st.gallons) :
    effRemaining e s'.i s'.remaining ≤ e.tank_range ∧
      ∀ st ∈ s'.stops, 0 ≤ st.gallons ∧ st.cost = st.price * st.gallons := by
  rcases planStep_next_cases e s s' hstep with hcr | ⟨c0, cs, hc, hsp⟩
  · subst hcr
    refine ⟨?_, hall⟩
    simp only [effRemaining_succ]
    have := hD (curCoords e s.i) (curCoords e (s.i + 1))
    linarith
  · rcases stopStep_spec e s _ s' hsp with ⟨hstops, hor⟩
    have hmem : pyMin Candidate.score c0 cs ∈
        candidatesAt e s.i (effRemaining e s.i s.remaining) := by
      rw [hc]
      exact pyMin_mem Candidate.score cs c0
    rcases mem_candidatesAt e s.i _ _ hmem with ⟨hdist, _, _⟩
    have hd0 : 0 ≤ (pyMin Candidate.score c0 cs).distance := by
      rw [hdist]
      exact hD _ _
    have hgall : ∀ st ∈ s'.stops, 0 ≤ st.gallons ∧ st.cost = st.price * st.gallons := by
      rw [hstops]
      intro st hmem2
      rcases List.mem_append.mp hmem2 with hold | hnew
      · exact hall st hold
      · have hst : st = mkFuelStop e s.i (effRemaining e s.i s.remaining)
            (pyMin Candidate.score c0 cs) := by
          simpa using hnew
        subst hst
        constructor
        · show 0 ≤ (e.tank_range - (effRemaining e s.i s.remaining -
              (pyMin Candidate.score c0 cs).distance)) / e.mpg
          apply div_nonneg _ (le_of_lt hmpg)
          linarith
        · rfl
    refine ⟨?_, hgall⟩
    rcases hor with h1 | h1
    · subst h1
      rw [show (resyncState e ((pyMin Candidate.score c0 cs).station.lat,
            (pyMin Candidate.score c0 cs).station.lon)
            (resyncIndex e s.i ((pyMin Candidate.score c0 cs).station.lat,
              (pyMin Candidate.score c0 cs).station.lon))
            (s.stops ++ [mkFuelStop e s.i (effRemaining e s.i s.remaining)
              (pyMin Candidate.score c0 cs)])).i =
          resyncIndex e s.i ((pyMin Candidate.score c0 cs).station.lat,
            (pyMin Candidate.score c0 cs).station.lon) + 1 from rfl]
      rw [eff_resyncState]
      have := hD ((pyMin Candidate.score c0 cs).station.lat,
        (pyMin Candidate.score c0 cs).station.lon)
        (curCoords e (resyncIndex e s.i ((pyMin Candidate.score c0 cs).station.lat,
          (pyMin Candidate.score c0 cs).station.lon) + 1))
      linarith
    · subst h1
      simp only [effRemaining_succ]
      have := hD (curCoords e s.i) (curCoords e (s.i + 1))
      linarith

/-- C6: every FuelStop produced by a successful planning run has
nonnegative gallons and cost equal to unit price times gallons exactly
(given a nonnegative distance function and positive fuel economy); and
every appended FuelStop's gallons equal (tank_range - range_at_station) /
fuel_economy with range_at_station the remaining range at the triggering
waypoint minus the distance from that waypoint to the station, with cost
= price * gallons exactly. -/
theorem C6_fuelstop_invariants :
    (∀ (D : ℚ × ℚ → ℚ × ℚ → ℚ) (start_coords end_coords : ℚ × ℚ)
        (route : List (ℚ × ℚ)) (allS : List Station) (td tank mpg : ℚ)
        (plan : PlanResult),
        (∀ a b, 0 ≤ D a b) → 0 < mpg →
        find_optimal_fuel_stops D start_coords end_coords route allS td tank mpg = .ok plan →
        ∀ stop ∈ plan.fuel_stops, 0 ≤ stop.gallons ∧ stop.cost = stop.price * stop.gallons) ∧
    (∀ (e : Env) (s s' : PState) (c : FuelStop),
        planStep e s = .next s' → s'.stops = s.stops ++ [c] →
        c.gallons = (e.tank_range - (effRemaining e s.i s.remaining -
            e.D (curCoords e s.i) c.loc)) / e.mpg ∧
        c.cost = c.price * c.gallons) := by
  constructor
  · intro D start_coords end_coords route allS td tank mpg plan hD hmpg hrun stop hmem
    by_cases hne : route = []
    · subst hne
      rw [show find_optimal_fuel_stops D start_coords end_coords [] allS td tank mpg =
          .error .emptySequence from rfl] at hrun
      cases hrun
    · rw [find_optimal_eq D start_coords end_coords route allS td tank mpg hne] at hrun
      cases hloop : loop (envOf D start_coords end_coords route allS td tank mpg)
          ⟨0, tank, start_coords, []⟩ with
      | error err =>
        rw [hloop] at hrun
        cases hrun
      | ok fin =>
        rw [hloop] at hrun
        have hplan := Except.ok.inj hrun
        have hfin := loop_inv (envOf D start_coords end_coords route allS td tank mpg)
          (fun t => effRemaining (envOf D start_coords end_coords route allS td tank mpg)
              t.i t.remaining ≤
              (envOf D start_coords end_coords route allS td tank mpg).tank_range ∧
            ∀ st ∈ t.stops, 0 ≤ st.gallons ∧ st.cost = st.price * st.gallons)
          (fun a b _ hstp hP =>
            stop_inv_step (envOf D start_coords end_coords route allS td tank mpg)
              hD hmpg a b hstp hP.1 hP.2)
          ⟨0, tank, start_coords, []⟩ fin hloop
          ⟨by simp only [effRemaining]; simp only [Nat.lt_irrefl 0, if_false]; exact le_refl tank, by intro st hst; cases hst⟩
        rw [← hplan] at hmem
        exact hfin.2 stop hmem
  · intro e s s' c hstep happ
    rcases planStep_append e s s' c hstep happ with ⟨best, hmem, hc⟩
    rcases mem_candidatesAt e s.i _ best hmem with ⟨hdist, _, _⟩
    subst hc
    refine ⟨?_, rfl⟩
    show (e.tank_range - (effRemaining e s.i s.remaining - best.distance)) / e.mpg =
      (e.tank_range - (effRemaining e s.i s.remaining -
        e.D (curCoords e s.i) (best.station.lat, best.station.lon))) / e.mpg
    rw [hdist]

/-- C6 witness: the first stop of the concrete two-stop run has gallons
21/2 at least 0 and cost 63/2 = 3 * 21/2 exactly. -/
theorem C6_witness :
    0 ≤ (⟨1, "A", (0,95), 3, 105, 21/2, 63/2⟩ : FuelStop).gallons ∧
      (⟨1, "A", (0,95), 3, 105, 21/2, 63/2⟩ : FuelStop).cost =
        (⟨1, "A", (0,95), 3, 105, 21/2, 63/2⟩ : FuelStop).price *
          (⟨1, "A", (0,95), 3, 105, 21/2, 63/2⟩ : FuelStop).gallons :=
  C6_fuelstop_invariants.1 taxiD (0,0) (100,40)
    [(0,0),(50,0),(100,0),(100,30),(40,30),(40,100)]
    [⟨1, "A", 0, 95, 3⟩, ⟨2, "B", 30, 40, 3⟩] 260 150 10
    ⟨[⟨1, "A", (0,95), 3, 105, 21/2, 63/2⟩, ⟨2, "B", (30,40), 3, 70, 19/2, 57/2⟩], 81, 260⟩
    taxiD_nonneg (by with_unfolding_all decide) (by with_unfolding_all decide)
    ⟨1, "A", (0,95), 3, 105, 21/2, 63/2⟩ (by with_unfolding_all decide)

/-- C2 counterexample: a well-formed short trip (road distance 13 miles,
straight-line distance 10 miles, no stations, tank 500, 10 mpg) satisfies
total_distance at most 0.4 * tank_range and yields zero stops, but
total_cost is 3.50 * (10 / 10) = 3.5, not (13 / 10) * 3.50 = 4.55 as the
claim states: the final-leg cost uses the distance from the last stop
location (here the start) to the destination, not total_distance. -/
theorem C2_counterexample :
    find_optimal_fuel_stops taxiD (0,0) (0,10) [(0,0),(10,0)] [] 13 500 10 =
        .ok ⟨[], 7/2, 13⟩ ∧
      ¬ ((7/2 : ℚ) = 13 / 10 * 3.50) := by
  with_unfolding_all decide

/-- C2 amended: for a metric-like distance function, a route whose sampled
waypoints end at the destination, and sampled legs totalling at most
0.4 * tank_range (which well-formed inputs with total_distance at most
0.4 * tank_range guarantee, geodesic legs under-approximating road
distance), the planner returns zero fuel stops and total_cost equal to
(D(start, destination) / fuel_economy) * p, where p is the catalog
average price over the prefiltered stations if any, else 3.50.  The
original claim's (total_distance / fuel_economy) * p is wrong: the code
prices the geodesic distance from the last stop location (the start) to
the destination, not the road distance. -/
theorem C2_amended (D : ℚ × ℚ → ℚ × ℚ → ℚ) (start_coords end_coords : ℚ × ℚ)
    (route : List (ℚ × ℚ)) (allS : List Station) (td tank mpg : ℚ)
    (hne : route ≠ [])
    (hD0 : ∀ a, D a a = 0) (hTri : ∀ a b c, D a c ≤ D a b + D b c)
    (htank : 0 ≤ tank)
    (hlegs : legsUpTo (envOf D start_coords end_coords route allS td tank mpg)
        ((sampleRoute route td).length - 1) ≤ tank * 0.40)
    (hend : curCoords (envOf D start_coords end_coords route allS td tank mpg)
        ((sampleRoute route td).length - 1) = end_coords) :
    find_optimal_fuel_stops D start_coords end_coords route allS td tank mpg =
      .ok { fuel_stops := [],
            total_cost := (if bboxStations route allS = [] then 3.50
                           else avgPrice (bboxStations route allS)) *
                            (D start_coords end_coords / mpg),
            total_distance := td } := by
  rw [find_optimal_eq D start_coords end_coords route allS td tank mpg hne]
  have hloop : loop (envOf D start_coords end_coords route allS td tank mpg)
      ⟨0, tank, start_coords, []⟩ =
      .ok ⟨(envOf D start_coords end_coords route allS td tank mpg).sampled.length,
           tank - legsUpTo (envOf D start_coords end_coords route allS td tank mpg)
             ((envOf D start_coords end_coords route allS td tank mpg).sampled.length - 1),
           start_coords, []⟩ := by
    have h := cruise_loopAux (envOf D start_coords end_coords route allS td tank mpg)
      hD0 hTri htank hlegs hend
      ((envOf D start_coords end_coords route allS td tank mpg).sampled.length + 1)
      ⟨0, tank, start_coords, []⟩
      (by omega) (by exact Nat.zero_le _)
      (by
        show tank = tank - legsUpTo (envOf D start_coords end_coords route allS td tank mpg) 0
        rw [legsUpTo_zero, sub_zero])
    exact h
  rw [hloop]
  show Except.ok (finalize (envOf D start_coords end_coords route allS td tank mpg) td _) = _
  simp only [finalize, List.map_nil, List.sum_nil, List.getLast?_nil, zero_add]
  rfl

/-- C2 witness: the concrete short trip (13 road miles, 10 geodesic miles,
no stations) instantiates the amended claim — zero stops and total_cost
3.50 * (10 / 10). -/
theorem C2_witness :
    find_optimal_fuel_stops taxiD (0,0) (0,10) [(0,0),(10,0)] [] 13 500 10 =
      .ok { fuel_stops := [],
            total_cost := (if bboxStations [(0,0),(10,0)] [] = [] then 3.50
                           else avgPrice (bboxStations [(0,0),(10,0)] [])) *
                            (taxiD (0,0) (0,10) / 10),
            total_distance := 13 } :=
  C2_amended taxiD (0,0) (0,10) [(0,0),(10,0)] [] 13 500 10
    (by with_unfolding_all decide) taxiD_self taxiD_triangle
    (by with_unfolding_all decide) (by with_unfolding_all decide)
    (by with_unfolding_all decide)

/-- C5: for a nonempty polyline and any total_distance, the stride is
max(1, floor(len(route) / floor(total_distance / 50))) when
floor(total_distance / 50) > 0 and 1 otherwise (the code's int()
truncation agrees with floor on the positivity test and on positive
values), and the sampled sequence is non-empty, starts at the route's
first point, and ends at the route's last point. -/
theorem C5_sampling (route : List (ℚ × ℚ)) (td : ℚ) (hne : route ≠ []) :
    (0 < ⌊td / 50⌋ →
      sampleInterval route.length td = max 1 (route.length / (⌊td / 50⌋).toNat)) ∧
    (⌊td / 50⌋ ≤ 0 → sampleInterval route.length td = 1) ∧
    sampleRoute route td ≠ [] ∧
    (sampleRoute route td).head? = route.head? ∧
    (sampleRoute route td).getLast? = route.getLast? :=
  ⟨fun h => sampleInterval_of_floor_pos route.length td h,
   fun h => sampleInterval_of_floor_nonpos route.length td h,
   sampleRoute_ne_nil route td hne,
   sampleRoute_head route td hne,
   sampleRoute_getLast route td hne⟩

/-- C5 witness: for the six-point route and total_distance 260 (so
floor(260/50) = 5 > 0), the stride is max 1 (6 / 5) = 1 and the sampled
sequence keeps the endpoints of the route. -/
theorem C5_witness :
    sampleInterval ([(0,0),(50,0),(100,0),(100,30),(40,30),(40,100)] :
        List (ℚ × ℚ)).length 260 =
      max 1 (([(0,0),(50,0),(100,0),(100,30),(40,30),(40,100)] :
        List (ℚ × ℚ)).length / (⌊(260 : ℚ) / 50⌋).toNat) ∧
    sampleRoute [(0,0),(50,0),(100,0),(100,30),(40,30),(40,100)] 260 ≠ [] ∧
    (sampleRoute [(0,0),(50,0),(100,0),(100,30),(40,30),(40,100)] 260).head? =
      ([(0,0),(50,0),(100,0),(100,30),(40,30),(40,100)] : List (ℚ × ℚ)).head? ∧
    (sampleRoute [(0,0),(50,0),(100,0),(100,30),(40,30),(40,100)] 260).getLast? =
      ([(0,0),(50,0),(100,0),(100,30),(40,30),(40,100)] : List (ℚ × ℚ)).getLast? :=
  ⟨(C5_sampling [(0,0),(50,0),(100,0),(100,30),(40,30),(40,100)] 260
      (by with_unfolding_all decide)).1 (by with_unfolding_all decide),
   (C5_sampling [(0,0),(50,0),(100,0),(100,30),(40,30),(40,100)] 260
      (by with_unfolding_all decide)).2.2.1,
   (C5_sampling [(0,0),(50,0),(100,0),(100,30),(40,30),(40,100)] 260
      (by with_unfolding_all decide)).2.2.2.1,
   (C5_sampling [(0,0),(50,0),(100,0),(100,30),(40,30),(40,100)] 260
      (by with_unfolding_all decide)).2.2.2.2⟩

/-- C7 counterexample: with fuel_economy -10 (non-positive), planning is
not rejected: the walk runs and returns a plan (with a negative cost),
so no InvalidVehicleProfile rejection exists in the code. -/
theorem C7_counterexample :
    find_optimal_fuel_stops taxiD (0,0) (0,10) [(0,0),(10,0)] [] 13 500 (-10) =
      .ok ⟨[], -(7/2), 13⟩ := by
  with_unfolding_all decide

/-- C7 amended: the code performs no vehicle-profile validation;
non-positive tank_range or fuel_economy values flow through planning
unchecked (the counterexample's run with fuel_economy -10 even succeeds)
and no InvalidVehicleProfile error exists anywhere.  For any nonempty
route and nonzero fuel_economy, the only error a planning run can
produce is the Stranded error raised inside the walk.  The nonzero
hypothesis scopes the statement to where the rational-division model
coincides with the code: at fuel_economy = 0 the code instead crashes
with a ZeroDivisionError at lines 200 / 276, an error path the total
division of mkFuelStop and finalize does not represent. -/
theorem C7_no_profile_validation (D : ℚ × ℚ → ℚ × ℚ → ℚ)
    (start_coords end_coords : ℚ × ℚ) (route : List (ℚ × ℚ))
    (allS : List Station) (td tank mpg : ℚ) (err : PlanError)
    (hne : route ≠ []) (_hmpg : mpg ≠ 0)
    (herr : find_optimal_fuel_stops D start_coords end_coords route allS td tank mpg =
      .error err) :
    err.isStranded = true := by
  rw [find_optimal_eq D start_coords end_coords route allS td tank mpg hne] at herr
  cases hloop : loop (envOf D start_coords end_coords route allS td tank mpg)
      ⟨0, tank, start_coords, []⟩ with
  | error e2 =>
    rw [hloop] at herr
    have := Except.error.inj herr
    subst this
    exact loopAux_error_isStranded (envOf D start_coords end_coords route allS td tank mpg)
      ((envOf D start_coords end_coords route allS td tank mpg).sampled.length + 1)
      ⟨0, tank, start_coords, []⟩ e2 hloop
  | ok fin =>
    rw [hloop] at herr
    cases herr

/-- C7 witness: with tank_range -500 the walk itself strands at the first
waypoint — a Stranded error, not a vehicle-profile rejection. -/
theorem C7_witness : (PlanError.stranded (0,0) (-500)).isStranded = true :=
  C7_no_profile_validation taxiD (0,0) (0,10) [(0,0),(10,0)] [] 13 (-500) 10
    (PlanError.stranded (0,0) (-500))
    (by with_unfolding_all decide) (by with_unfolding_all decide)
    (by with_unfolding_all decide)

/-- C8 counterexample: a one-point polyline (fewer than 2 points) is not
rejected: planning proceeds and returns a plan with no stops and zero
cost, so no EmptyRoute error is raised. -/
theorem C8_counterexample :
    find_optimal_fuel_stops taxiD (0,0) (0,0) [(5,0)] [] 10 500 10 =
      .ok ⟨[], 0, 10⟩ := by
  with_unfolding_all decide

/-- C8 amended: the code has no dedicated EmptyRoute error.  A zero-point
polyline crashes with the ValueError that min() raises on an empty
sequence (modeled as emptySequence), and a one-point polyline is
processed normally (see the counterexample's successful run). -/
theorem C8_empty_route_behavior (D : ℚ × ℚ → ℚ × ℚ → ℚ)
    (start_coords end_coords : ℚ × ℚ) (allS : List Station) (td tank mpg : ℚ) :
    find_optimal_fuel_stops D start_coords end_coords [] allS td tank mpg =
      .error .emptySequence := rfl
